import Mathlib

/-!
Shallow embedding of the `mobilekcp` session-pool proxy
(`src/unnamed/part_000`: `StartProxy`, `StopProxy`, `IsRunning`,
`applyDefaults`, `applyMode`, `validateConfig`, `acceptLoop`,
`handleClient`, and the `Config` struct).

External collaborators (the KCP transport, the smux multiplexer, the
TCP listener and Go's `encoding/json`) are modelled by oracles or by
small executable models; every control-flow decision of the proxy code
itself is translated directly from the source.

Sessions and listeners are identified by natural-number ids drawn from
a fresh-id counter; the set of ids not yet closed (by the proxy or by
the remote peer) is tracked explicitly, so that resource claims
("no session left open", "all sessions report closed") become
statements about those lists.  A session `s` "reports closed"
(`IsClosed()` in the source) exactly when `s` is not in the open-id
list.
-/

namespace Mobilekcp

/-- The `Config` struct of the source (JSON-visible fields plus the
internal tuning fields `NoDelay`, `Interval`, `Resend`, `NoCongestion`,
`NoComp` that carry the json tag `-`).  Go `int` fields are `Int`,
`string` fields `String`, `bool` fields `Bool`. -/
structure Config where
  LocalAddr : String := ""
  RemoteAddr : String := ""
  Mode : String := ""
  Conn : Int := 0
  MTU : Int := 0
  SndWnd : Int := 0
  RcvWnd : Int := 0
  DataShard : Int := 0
  ParityShard : Int := 0
  AckNodelay : Bool := false
  SockBuf : Int := 0
  SmuxVer : Int := 0
  SmuxBuf : Int := 0
  FrameSize : Int := 0
  StreamBuf : Int := 0
  KeepAlive : Int := 0
  NoDelay : Int := 0
  Interval : Int := 0
  Resend : Int := 0
  NoCongestion : Int := 0
  NoComp : Bool := false
deriving DecidableEq

/-- `applyDefaults` from the source: replaces each zero/empty field by
its documented default and forces `NoComp = true`. -/
def applyDefaults (c : Config) : Config :=
  let c := if c.LocalAddr = "" then { c with LocalAddr := "127.0.0.1:1080" } else c
  let c := if c.Conn ≤ 0 then { c with Conn := 1 } else c
  let c := if c.MTU ≤ 0 then { c with MTU := 1350 } else c
  let c := if c.SndWnd ≤ 0 then { c with SndWnd := 128 } else c
  let c := if c.RcvWnd ≤ 0 then { c with RcvWnd := 512 } else c
  let c := if c.DataShard ≤ 0 then { c with DataShard := 10 } else c
  let c := if c.ParityShard ≤ 0 then { c with ParityShard := 3 } else c
  let c := if c.SmuxVer ≤ 0 then { c with SmuxVer := 1 } else c
  let c := if c.SmuxBuf ≤ 0 then { c with SmuxBuf := 4194304 } else c
  let c := if c.StreamBuf ≤ 0 then { c with StreamBuf := 2097152 } else c
  let c := if c.FrameSize ≤ 0 then { c with FrameSize := 4096 } else c
  let c := if c.KeepAlive ≤ 0 then { c with KeepAlive := 10 } else c
  let c := if c.SockBuf ≤ 0 then { c with SockBuf := 4194304 } else c
  let c := if c.Mode = "" then { c with Mode := "fast" } else c
  { c with NoComp := true }

/-- `applyMode` from the source: the `switch config.Mode` that sets the
four internal tuning numbers, with the `default` branch equal to
`fast`. -/
def applyMode (c : Config) : Config :=
  if c.Mode = "normal" then
    { c with NoDelay := 0, Interval := 40, Resend := 2, NoCongestion := 1 }
  else if c.Mode = "fast" then
    { c with NoDelay := 0, Interval := 30, Resend := 2, NoCongestion := 1 }
  else if c.Mode = "fast2" then
    { c with NoDelay := 1, Interval := 20, Resend := 2, NoCongestion := 1 }
  else if c.Mode = "fast3" then
    { c with NoDelay := 1, Interval := 10, Resend := 2, NoCongestion := 1 }
  else
    { c with NoDelay := 0, Interval := 30, Resend := 2, NoCongestion := 1 }

/-- `validateConfig` from the source; `some msg` models a non-nil
`error` whose `Error()` text is `msg` (the smux message renders the
version number the way `fmt.Errorf` with `%d` does). -/
def validateConfig (c : Config) : Option String :=
  if c.RemoteAddr = "" then some "remoteaddr is required"
  else if c.Conn ≤ 0 then some "conn must be greater than 0"
  else if 2 < c.SmuxVer then some ("unsupported smux version: " ++ toString c.SmuxVer)
  else none

/-! ### A model of Go's `encoding/json` for the `Config` struct

`StartProxy` takes the configuration as a JSON string and decodes it
with `json.Unmarshal`.  That library is an external collaborator; the
decoder below models its behaviour on the flat, escape-free JSON
objects the `Config` struct can receive: an object of
`"key": value` pairs whose values are strings, integers or booleans.
Unknown keys are ignored (as `encoding/json` does), a value of the
wrong type for a known key is a decode error, and the exact text of a
decode error is not modelled (no claim depends on it). -/

/-- A decoded JSON scalar value. -/
inductive JVal where
  | jstr (s : String)
  | jnum (n : Int)
  | jbool (b : Bool)
deriving DecidableEq

/-- Left-brace character, written via its code point. -/
def lbrace : Char := Char.ofNat 123

/-- Right-brace character, written via its code point. -/
def rbrace : Char := Char.ofNat 125

/-- Drop leading JSON whitespace. -/
def skipWs : List Char → List Char
  | [] => []
  | c :: cs =>
    if c = ' ' ∨ c = '\n' ∨ c = '\t' ∨ c = '\r' then skipWs cs else c :: cs

/-- Read a string-literal body up to the closing quote (escape
sequences are out of scope of the model and rejected). -/
def parseStrBody : List Char → Option (String × List Char)
  | [] => none
  | c :: cs =>
    if c = '\"' then some ("", cs)
    else if c = '\\' then none
    else
      match parseStrBody cs with
      | some (s, rest) => some (String.mk (c :: s.data), rest)
      | none => none

/-- Read a run of decimal digits, most significant first. -/
def parseDigits : List Char → Nat → Nat × List Char
  | [], acc => (acc, [])
  | c :: cs, acc =>
    if c.isDigit then parseDigits cs (acc * 10 + (c.toNat - 48)) else (acc, c :: cs)

/-- Read an optionally negated integer literal. -/
def parseNumber : List Char → Option (Int × List Char)
  | [] => none
  | c :: cs =>
    if c = '-' then
      match cs with
      | d :: _ =>
        if d.isDigit then
          let p := parseDigits cs 0
          some (-(p.1 : Int), p.2)
        else none
      | [] => none
    else if c.isDigit then
      let p := parseDigits (c :: cs) 0
      some ((p.1 : Int), p.2)
    else none

/-- Read one scalar JSON value (string, boolean or integer). -/
def parseScalar (cs : List Char) : Option (JVal × List Char) :=
  match skipWs cs with
  | '\"' :: cs1 =>
    match parseStrBody cs1 with
    | some (s, rest) => some (.jstr s, rest)
    | none => none
  | 't' :: 'r' :: 'u' :: 'e' :: rest => some (.jbool true, rest)
  | 'f' :: 'a' :: 'l' :: 's' :: 'e' :: rest => some (.jbool false, rest)
  | cs1 =>
    match parseNumber cs1 with
    | some (n, rest) => some (.jnum n, rest)
    | none => none

/-- Read the `"key": value` pairs of an object after its opening
brace, consuming the closing brace.  `fuel` bounds the recursion by
the input length. -/
def parsePairs : Nat → List Char → Option (List (String × JVal) × List Char)
  | 0, _ => none
  | fuel + 1, cs =>
    match skipWs cs with
    | '\"' :: cs1 =>
      match parseStrBody cs1 with
      | none => none
      | some (key, cs2) =>
        match skipWs cs2 with
        | ':' :: cs3 =>
          match parseScalar cs3 with
          | none => none
          | some (v, cs4) =>
            match skipWs cs4 with
            | c :: cs5 =>
              if c = ',' then
                match parsePairs fuel cs5 with
                | some (ps, rest) => some ((key, v) :: ps, rest)
                | none => none
              else if c = rbrace then some ([(key, v)], cs5)
              else none
            | [] => none
        | _ => none
    | _ => none

/-- Parse a whole JSON object with scalar fields. -/
def parseTopLevel (s : String) : Option (List (String × JVal)) :=
  match skipWs s.data with
  | c :: cs =>
    if c = lbrace then
      match skipWs cs with
      | d :: cs1 =>
        if d = rbrace then
          if skipWs cs1 = [] then some [] else none
        else
          match parsePairs (s.length + 1) cs with
          | some (ps, rest) => if skipWs rest = [] then some ps else none
          | none => none
      | [] => none
    else none
  | [] => none

/-- Assign one decoded `"key": value` pair to its `Config` field
following the struct's json tags; unknown keys are ignored, a
wrong-typed value is a decode error (`none`).  Fields tagged `json -`
(`NoDelay`, `Interval`, `Resend`, `NoCongestion`, `NoComp`) are never
set. -/
def setField (c : Config) : String × JVal → Option Config
  | (k, v) =>
    if k = "localaddr" then
      match v with | .jstr s => some { c with LocalAddr := s } | _ => none
    else if k = "remoteaddr" then
      match v with | .jstr s => some { c with RemoteAddr := s } | _ => none
    else if k = "mode" then
      match v with | .jstr s => some { c with Mode := s } | _ => none
    else if k = "conn" then
      match v with | .jnum n => some { c with Conn := n } | _ => none
    else if k = "mtu" then
      match v with | .jnum n => some { c with MTU := n } | _ => none
    else if k = "sndwnd" then
      match v with | .jnum n => some { c with SndWnd := n } | _ => none
    else if k = "rcvwnd" then
      match v with | .jnum n => some { c with RcvWnd := n } | _ => none
    else if k = "datashard" then
      match v with | .jnum n => some { c with DataShard := n } | _ => none
    else if k = "parityshard" then
      match v with | .jnum n => some { c with ParityShard := n } | _ => none
    else if k = "acknodelay" then
      match v with | .jbool b => some { c with AckNodelay := b } | _ => none
    else if k = "sockbuf" then
      match v with | .jnum n => some { c with SockBuf := n } | _ => none
    else if k = "smuxver" then
      match v with | .jnum n => some { c with SmuxVer := n } | _ => none
    else if k = "smuxbuf" then
      match v with | .jnum n => some { c with SmuxBuf := n } | _ => none
    else if k = "framesize" then
      match v with | .jnum n => some { c with FrameSize := n } | _ => none
    else if k = "streambuf" then
      match v with | .jnum n => some { c with StreamBuf := n } | _ => none
    else if k = "keepalive" then
      match v with | .jnum n => some { c with KeepAlive := n } | _ => none
    else some c

/-- Decode a configuration JSON string into a `Config` starting from
the Go zero value, modelling `json.Unmarshal([]byte(s), &config)`.
The error text stands in for the library's message; no claim depends
on it. -/
def decodeConfig (s : String) : Except String Config :=
  match parseTopLevel s with
  | none => .error "invalid JSON input"
  | some ps =>
    match ps.foldlM setField {} with
    | some c => .ok c
    | none => .error "cannot unmarshal value into Config field"

/-! ### The proxy's global state

The package-level variables of the source (`proxyListener`,
`proxySessions`, `proxyRunning`, `proxyConfig`, `stopChan`) together
with the accept loop's round-robin counter `rr`, a fresh-id counter,
and the resource ledgers `openSessions` / `openListeners` (ids created
and not yet closed by anyone).  The mutex serialises every state
access in the source, so each operation is a function on this state. -/
structure GoState where
  running : Bool
  proxyListener : Option Nat
  proxySessions : Option (List (Option Nat))
  proxyConfig : Option Config
  stopClosed : Option Bool
  rr : Nat
  nextId : Nat
  openSessions : List Nat
  openListeners : List Nat
deriving DecidableEq

/-- The freshly started process: every package-level variable at its
zero value. -/
def initState : GoState :=
  { running := false, proxyListener := none, proxySessions := none,
    proxyConfig := none, stopClosed := none, rr := 0, nextId := 0,
    openSessions := [], openListeners := [] }

/-- Outcomes chosen by the network for one `StartProxy` call:
whether `net.Listen` succeeds, and for each `createSession` call
(numbered from 0) whether the dial/handshake succeeds, with the error
text on failure. -/
structure StartEnv where
  listenOutcome : Except String Unit
  createOutcomes : Nat → Except String Unit

/-- The pool-population loop of `StartProxy` (`for i := 0; i < config.Conn;
i++ { session, err := createSession(&config); ... proxySessions[i] = session }`)
acting on the slots `i, i+1, ...`: returns the contents those slots end
up with, the advanced fresh-id counter, the ids of the sessions that
were created, and the error of the first failing `createSession`, if
any.  Writing `proxySessions[i] = session` into the freshly allocated
all-nil slice is modelled by building the slot list directly. -/
def fillPool (o : Nat → Except String Unit) : Nat → Nat → Nat →
    List (Option Nat) × Nat × List Nat × Option String
  | _, nid, 0 => ([], nid, [], none)
  | i, nid, fuel + 1 =>
    match o i with
    | .error e => (List.replicate (fuel + 1) none, nid, [], some e)
    | .ok _ =>
      let r := fillPool o (i + 1) (nid + 1) fuel
      (some nid :: r.1, r.2.1, nid :: r.2.2.1, r.2.2.2)

/-- `StartProxy` from the source.  The early `return` paths leave the
state untouched; on the session-error path the listener (already bound
and recorded in `proxyListener`) is closed again before returning, but
the sessions already created stay in `openSessions` because the source
closes none of them; on success the accept loop is started, which is
modelled by resetting `rr` to 0. -/
def StartProxy (st : GoState) (configJson : String) (env : StartEnv) :
    GoState × String :=
  if st.running then (st, "Proxy already running")
  else
    match decodeConfig configJson with
    | .error e => (st, "Config Error: " ++ e)
    | .ok c0 =>
      let cfg := applyMode (applyDefaults c0)
      match validateConfig cfg with
      | some e => (st, "Validate Error: " ++ e)
      | none =>
        match env.listenOutcome with
        | .error e => (st, "Listen Error: " ++ e)
        | .ok _ =>
          let lid := st.nextId
          let fp := fillPool env.createOutcomes 0 (lid + 1) cfg.Conn.toNat
          match fp.2.2.2 with
          | some e =>
            -- listener bound, then closed by `proxyListener.Close()`:
            -- net effect on `openListeners` is none, but the dangling
            -- pointer and the partially filled slice remain.
            ({ st with proxyListener := some lid,
                       proxySessions := some fp.1,
                       nextId := fp.2.1,
                       openSessions := st.openSessions ++ fp.2.2.1 },
             "Session Error: " ++ e)
          | none =>
            ({ st with proxyListener := some lid,
                       openListeners := st.openListeners ++ [lid],
                       proxySessions := some fp.1,
                       nextId := fp.2.1,
                       openSessions := st.openSessions ++ fp.2.2.1,
                       proxyConfig := some cfg,
                       running := true,
                       stopClosed := some false,
                       rr := 0 }, "")

/-- The live pool slice (empty when `proxySessions` is nil). -/
def poolOf (st : GoState) : List (Option Nat) := st.proxySessions.getD []

/-- The session ids currently held by pool slots. -/
def poolIds (st : GoState) : List Nat := (poolOf st).filterMap id

/-- `StopProxy` from the source: a guarded no-op when not running;
otherwise clears the running flag, closes `stopChan`, closes and nils
the listener, closes every non-nil pooled session and nils the pool
and the config. -/
def StopProxy (st : GoState) : GoState :=
  if st.running then
    let st1 := { st with running := false, stopClosed := some true }
    let st2 :=
      match st1.proxyListener with
      | some l =>
        { st1 with proxyListener := none,
                   openListeners := st1.openListeners.filter (fun x => x ≠ l) }
      | none => st1
    { st2 with
        openSessions := st2.openSessions.filter (fun x => x ∉ poolIds st2),
        proxySessions := none,
        proxyConfig := none }
  else st

/-- `IsRunning` from the source. -/
def IsRunning (st : GoState) : Bool := st.running

/-- What one accepted connection ends as, seen from the accept loop:
the loop `return`s (connection closed, nothing dispatched), the
connection is closed because slot repair failed (`continue`), or
`go handleClient(conn, session)` is started with the given slot and
session. -/
inductive DispatchResult where
  | exited
  | dropped (slot : Nat)
  | forwarded (slot : Nat) (sid : Nat)
deriving DecidableEq

/-- The slot index an accepted connection was bound to, if any. -/
def slotOf : DispatchResult → Option Nat
  | .exited => none
  | .dropped s => some s
  | .forwarded s _ => some s

/-- The repair branch of the accept loop (`if session == nil ||
session.IsClosed()`): one `createSession(proxyConfig)` attempt; on
failure the connection is closed and the slot left as it was, on
success the new session is installed into the slot and used. -/
def repairSlot (st : GoState) (pool : List (Option Nat)) (idx : Nat)
    (o : Except String Unit) : GoState × DispatchResult :=
  match o with
  | .error _ => (st, .dropped idx)
  | .ok _ =>
    ({ st with proxySessions := some (pool.set idx (some st.nextId)),
               nextId := st.nextId + 1,
               openSessions := st.openSessions ++ [st.nextId] },
     .forwarded idx st.nextId)

/-- The body of `acceptLoop` for one accepted connection (source lines
297–324): under the mutex, bail out if no longer running, otherwise
pick `idx := rr % len(proxySessions)`, advance `rr`, and reuse the
slot's session if it is alive (`s ∈ openSessions`), else repair.  `o`
is the network's outcome for the `createSession` call, consulted only
when repair happens. -/
def dispatchOne (st : GoState) (o : Except String Unit) :
    GoState × DispatchResult :=
  if st.running then
    let pool := poolOf st
    let idx := st.rr % pool.length
    let st1 := { st with rr := st.rr + 1 }
    match pool.getD idx none with
    | some s =>
      if s ∈ st1.openSessions then (st1, .forwarded idx s)
      else repairSlot st1 pool idx o
    | none => repairSlot st1 pool idx o
  else (st, .exited)

/-- Environment events interleaved with the accept loop: an accepted
connection (with the network's outcome for a possible repair), or the
remote peer killing session `sid`, after which that session reports
`IsClosed()`. -/
inductive Event where
  | accept (o : Except String Unit)
  | die (sid : Nat)

/-- One event against the state. -/
def stepEv (st : GoState) : Event → GoState × Option DispatchResult
  | .accept o =>
    let r := dispatchOne st o
    (r.1, some r.2)
  | .die sid => ({ st with openSessions := st.openSessions.erase sid }, none)

/-- Run a list of events, collecting the dispatch results of the
accepted connections in order. -/
def runEvents (st : GoState) : List Event → GoState × List DispatchResult
  | [] => (st, [])
  | e :: es =>
    let r := stepEv st e
    let rest := runEvents r.1 es
    (rest.1, r.2.toList ++ rest.2)

/-- Number of accepted connections in an event list. -/
def countAccepts : List Event → Nat
  | [] => 0
  | .accept _ :: es => countAccepts es + 1
  | .die _ :: es => countAccepts es

/-- Whether the slot `idx` would trigger repair at dispatch time:
its occupant is nil or reports closed. -/
def slotDead (st : GoState) (idx : Nat) : Bool :=
  match (poolOf st).getD idx none with
  | none => true
  | some s => decide (s ∉ st.openSessions)

/-! ### The Forwarder (`handleClient`)

`handleClient` closes resources in an order fixed by its code: the
deferred `p1.Close()` is registered first, then `OpenStream` either
fails (so only the deferred close runs) or succeeds and `p2.Close()`
is deferred on top of it; two copy goroutines then run concurrently —
the stream→local one calls `CloseRead` on the local TCP connection
when its copy finishes, the local→stream one closes the stream when
its copy finishes — and `wg.Wait()` holds the function until both are
done, after which the deferred closes run in LIFO order.  The model
produces the trace of these observable actions; `sched` chooses the
interleaving of the two goroutines (`true` = the stream→local
goroutine moves next). -/

/-- A copy direction inside one Forwarder. -/
inductive Dir where
  | streamToLocal
  | localToStream
deriving DecidableEq

/-- Observable actions of one `handleClient` run: a copy direction
finishing, `tcpConn.CloseRead()`, `p2.Close()` (the logical stream),
and `p1.Close()` (the whole local connection). -/
inductive FAct where
  | finish (d : Dir)
  | closeReadLocal
  | closeStream
  | closeLocal
deriving DecidableEq

/-- The action sequence of one copy goroutine: `io.Copy` finishing,
then its direction's half-close. -/
def copyTask : Dir → List FAct
  | .streamToLocal => [.finish .streamToLocal, .closeReadLocal]
  | .localToStream => [.finish .localToStream, .closeStream]

/-- Interleave two sequential tasks under a schedule (`true` = first
task moves next); when the schedule runs out the first task finishes
first. -/
def interleave {α : Type} : List Bool → List α → List α → List α
  | [], xs, ys => xs ++ ys
  | _ :: _, [], ys => ys
  | _ :: _, x :: xs, [] => x :: xs
  | true :: bs, x :: xs, y :: ys => x :: interleave bs xs (y :: ys)
  | false :: bs, x :: xs, y :: ys => y :: interleave bs (x :: xs) ys

/-- The trace of one `handleClient` run: if `OpenStream` fails only
the deferred `p1.Close()` happens; otherwise the two copy goroutines
interleave and then the deferred `p2.Close()` and `p1.Close()` run. -/
def handleClient (openOk : Bool) (sched : List Bool) : List FAct :=
  if openOk then
    interleave sched (copyTask .streamToLocal) (copyTask .localToStream) ++
      [.closeStream, .closeLocal]
  else [.closeLocal]

/-- The four internal tuning numbers set by `applyMode`. -/
def modeTuple (c : Config) : Int × Int × Int × Int :=
  (c.NoDelay, c.Interval, c.Resend, c.NoCongestion)

/-- A concrete running state for instantiating the dispatch theorems:
3-slot pool holding sessions 1, 2, 3, of which session 2 (slot 1)
reports closed, with the round-robin counter about to select slot 1. -/
def demoState : GoState :=
  { running := true, proxyListener := some 0,
    proxySessions := some [some 1, some 2, some 3],
    proxyConfig := none, stopClosed := some false, rr := 1, nextId := 4,
    openSessions := [1, 3], openListeners := [0] }

/-- The list of listener ids the running proxy holds (at most the one
in `proxyListener`). -/
def listenerList (st : GoState) : List Nat :=
  match st.proxyListener with
  | some l => [l]
  | none => []

/-! ### Helper lemmas -/

/-- `applyDefaults` touches `Mode` only to replace the empty string by
`fast`. -/
lemma applyDefaults_Mode (c : Config) :
    (applyDefaults c).Mode = if c.Mode = "" then "fast" else c.Mode := by
  simp only [applyDefaults, apply_ite Config.Mode, ite_self]

/-- `applyDefaults` touches `Conn` only to replace non-positive values
by 1. -/
lemma applyDefaults_Conn (c : Config) :
    (applyDefaults c).Conn = if c.Conn ≤ 0 then 1 else c.Conn := by
  simp only [applyDefaults, apply_ite Config.Conn, ite_self]

/-- After `applyDefaults` the pool size is at least 1. -/
lemma one_le_applyDefaults_Conn (c : Config) : 1 ≤ (applyDefaults c).Conn := by
  rw [applyDefaults_Conn]; split <;> omega

/-- `applyMode` never changes `Conn`. -/
lemma applyMode_Conn (c : Config) : (applyMode c).Conn = c.Conn := by
  simp only [applyMode, apply_ite Config.Conn, ite_self]

/-- Two strings differ when their data differ at the head; used to
separate the phase prefixes of the error messages. -/
lemma str_append_ne (a b t : String) (x y : Char)
    (ha : a.data.head? = some x) (ht : t.data.head? = some y) (hxy : x ≠ y) :
    a ++ b ≠ t := by
  intro he
  have hdata : a.data ++ b.data = t.data := by rw [← String.data_append, he]
  cases hA : a.data with
  | nil => rw [hA] at ha; exact absurd ha (by simp)
  | cons u us =>
    cases hT : t.data with
    | nil => rw [hT] at ht; exact absurd ht (by simp)
    | cons v vs =>
      rw [hA] at ha
      rw [hT] at ht
      rw [hA, hT] at hdata
      have hu : u = x := by simpa using ha
      have hv : v = y := by simpa using ht
      have huv : u = v := by simpa using congrArg List.head? hdata
      exact hxy (hu ▸ hv ▸ huv)

/-- A string with a nonempty prefix is nonempty. -/
lemma str_append_ne_empty (a b : String) (x : Char)
    (ha : a.data.head? = some x) : a ++ b ≠ "" := by
  intro he
  have hdata : a.data ++ b.data = [] := by
    rw [← String.data_append, he]
  cases hA : a.data with
  | nil => rw [hA] at ha; exact absurd ha (by simp)
  | cons u us => rw [hA] at hdata; simp at hdata

/-- Cancel a common prefix of two equal strings. -/
lemma str_append_left_cancel (a b c : String) (h : a ++ b = a ++ c) : b = c := by
  have hdata : a.data ++ b.data = a.data ++ c.data := by
    rw [← String.data_append, ← String.data_append, h]
  exact String.ext (List.append_cancel_left hdata)

/-- C9: `applyMode` maps `normal` to `(0,40,2,1)`, `fast` to
`(0,30,2,1)`, `fast2` to `(1,20,2,1)`, `fast3` to `(1,10,2,1)`, and
every other mode string to `fast`'s values; `applyDefaults` replaces
an empty mode with `fast` beforehand. -/
theorem applyMode_presets (c : Config) :
    modeTuple (applyMode { c with Mode := "normal" }) = (0, 40, 2, 1) ∧
    modeTuple (applyMode { c with Mode := "fast" }) = (0, 30, 2, 1) ∧
    modeTuple (applyMode { c with Mode := "fast2" }) = (1, 20, 2, 1) ∧
    modeTuple (applyMode { c with Mode := "fast3" }) = (1, 10, 2, 1) ∧
    (∀ d : Config, d.Mode = "" → (applyDefaults d).Mode = "fast") ∧
    (∀ m : String, m ≠ "normal" → m ≠ "fast" → m ≠ "fast2" → m ≠ "fast3" →
      modeTuple (applyMode { c with Mode := m }) = (0, 30, 2, 1)) := by
  refine ⟨by simp [applyMode, modeTuple], by simp [applyMode, modeTuple],
    by simp [applyMode, modeTuple], by simp [applyMode, modeTuple],
    fun d hd => by rw [applyDefaults_Mode, hd]; rfl,
    fun m h1 h2 h3 h4 => by simp [applyMode, modeTuple, h1, h2, h3, h4]⟩

/-- Closed instance of `applyMode_presets`: the zero config with the
unknown mode string `turbo` gets `fast`'s tuning values, and an empty
mode defaults to `fast`. -/
theorem applyMode_presets_witness :
    modeTuple (applyMode { ({} : Config) with Mode := "turbo" }) = (0, 30, 2, 1) ∧
    (applyDefaults ({} : Config)).Mode = "fast" :=
  ⟨(applyMode_presets {}).2.2.2.2.2 "turbo" (by decide) (by decide) (by decide)
      (by decide),
    (applyMode_presets {}).2.2.2.2.1 {} rfl⟩

/-- C8: starting with a config whose `remoteaddr` is empty fails
validation with the message `Validate Error: remoteaddr is required`
(which contains the substring `remoteaddr`), returns before any
resource is allocated, and leaves the state — hence `IsRunning` —
untouched. -/
theorem startProxy_missing_remoteaddr (st : GoState) (env : StartEnv)
    (h : st.running = false) :
    StartProxy st "\x7b\"remoteaddr\":\"\",\"localaddr\":\"127.0.0.1:0\"\x7d" env =
      (st, "Validate Error: remoteaddr is required") ∧
    "Validate Error: remoteaddr is required" ≠ "" ∧
    (∃ pre post : List Char,
      ("Validate Error: remoteaddr is required").data =
        pre ++ "remoteaddr".data ++ post) ∧
    IsRunning st = false := by
  refine ⟨?_, by decide, ⟨"Validate Error: ".data, " is required".data, by decide⟩,
    by simp [IsRunning, h]⟩
  rw [StartProxy, h]
  rfl

/-- Closed instance of `startProxy_missing_remoteaddr` at the freshly
started process. -/
theorem startProxy_missing_remoteaddr_witness :
    StartProxy initState
        "\x7b\"remoteaddr\":\"\",\"localaddr\":\"127.0.0.1:0\"\x7d"
        ⟨.ok (), fun _ => .ok ()⟩ =
      (initState, "Validate Error: remoteaddr is required") :=
  (startProxy_missing_remoteaddr initState ⟨.ok (), fun _ => .ok ()⟩ rfl).1

/-- The first task's actions appear in order in any interleaving. -/
lemma interleave_sublist_left {α : Type} (bs : List Bool) (xs ys : List α) :
    List.Sublist xs (interleave bs xs ys) := by
  induction bs generalizing xs ys with
  | nil => exact List.sublist_append_left xs ys
  | cons b bs ih =>
    cases xs with
    | nil => simp [interleave]
    | cons x xs =>
      cases ys with
      | nil => simp [interleave]
      | cons y ys =>
        cases b with
        | true => exact (ih xs (y :: ys)).cons₂ x
        | false => exact (ih (x :: xs) ys).cons y

/-- The second task's actions appear in order in any interleaving. -/
lemma interleave_sublist_right {α : Type} (bs : List Bool) (xs ys : List α) :
    List.Sublist ys (interleave bs xs ys) := by
  induction bs generalizing xs ys with
  | nil => exact List.sublist_append_right xs ys
  | cons b bs ih =>
    cases xs with
    | nil => simp [interleave]
    | cons x xs =>
      cases ys with
      | nil => simp [interleave]
      | cons y ys =>
        cases b with
        | true => exact (ih xs (y :: ys)).cons x
        | false => exact (ih (x :: xs) ys).cons₂ y

/-- An interleaving is a permutation of the two tasks' actions. -/
lemma interleave_perm {α : Type} (bs : List Bool) (xs ys : List α) :
    List.Perm (interleave bs xs ys) (xs ++ ys) := by
  induction bs generalizing xs ys with
  | nil => exact List.Perm.refl _
  | cons b bs ih =>
    cases xs with
    | nil => simp [interleave]
    | cons x xs =>
      cases ys with
      | nil => simp [interleave]
      | cons y ys =>
        cases b with
        | true => exact (ih xs (y :: ys)).cons x
        | false =>
          exact ((ih (x :: xs) ys).cons y).trans List.perm_middle.symm

/-- Membership in an interleaving is membership in one of the tasks. -/
lemma mem_interleave {α : Type} {a : α} (bs : List Bool) (xs ys : List α) :
    a ∈ interleave bs xs ys ↔ a ∈ xs ∨ a ∈ ys := by
  rw [(interleave_perm bs xs ys).mem_iff, List.mem_append]

/-- C5: in every schedule of a forwarding run, the stream→local copy's
finish is followed by `CloseRead` on the local connection (a
half-close, not a full close), the local→stream copy's finish is
followed by closing the logical stream, and the full `p1.Close()` of
the local connection happens exactly once, last, after both copy
directions have finished. -/
theorem handleClient_halfClose (sched : List Bool) :
    List.Sublist [FAct.finish .streamToLocal, FAct.closeReadLocal]
      (handleClient true sched) ∧
    List.Sublist [FAct.finish .localToStream, FAct.closeStream]
      (handleClient true sched) ∧
    ∃ w, handleClient true sched = w ++ [FAct.closeStream, FAct.closeLocal] ∧
      FAct.closeLocal ∉ w ∧
      FAct.finish .streamToLocal ∈ w ∧ FAct.finish .localToStream ∈ w := by
  refine ⟨?_, ?_, interleave sched (copyTask .streamToLocal) (copyTask .localToStream),
    rfl, ?_, ?_, ?_⟩
  · exact (interleave_sublist_left sched _ _).trans
      (List.sublist_append_left _ _)
  · exact (interleave_sublist_right sched _ _).trans
      (List.sublist_append_left _ _)
  · intro hmem
    rcases (mem_interleave sched _ _).mp hmem with h | h <;> revert h <;> decide
  · exact (mem_interleave sched _ _).mpr (Or.inl (by decide))
  · exact (mem_interleave sched _ _).mpr (Or.inr (by decide))

/-- C6: under every schedule the Forwarder's trace ends with the local
connection's close; when `OpenStream` fails the trace is exactly that
close (nothing is forwarded, no copy direction ever runs); when it
succeeds the logical stream is closed and the final teardown runs only
after both copy directions have finished. -/
theorem handleClient_complete (openOk : Bool) (sched : List Bool) :
    (handleClient openOk sched).getLast? = some FAct.closeLocal ∧
    (openOk = false → handleClient openOk sched = [FAct.closeLocal]) ∧
    (openOk = true → FAct.closeStream ∈ handleClient openOk sched ∧
      ∃ w, handleClient openOk sched = w ++ [FAct.closeStream, FAct.closeLocal] ∧
        FAct.finish .streamToLocal ∈ w ∧ FAct.finish .localToStream ∈ w) := by
  refine ⟨?_, fun h => by rw [h]; rfl, fun h => ?_⟩
  · cases openOk with
    | false => rfl
    | true =>
      show (interleave sched _ _ ++ [FAct.closeStream, FAct.closeLocal]).getLast? = _
      rw [show interleave sched (copyTask .streamToLocal) (copyTask .localToStream) ++
            [FAct.closeStream, FAct.closeLocal] =
          (interleave sched (copyTask .streamToLocal) (copyTask .localToStream) ++
            [FAct.closeStream]) ++ [FAct.closeLocal] by
            rw [List.append_assoc]; rfl]
      exact List.getLast?_concat _
  · subst h
    refine ⟨List.mem_append_right _ (by decide),
      interleave sched (copyTask .streamToLocal) (copyTask .localToStream),
      rfl,
      (mem_interleave sched _ _).mpr (Or.inl (by decide)),
      (mem_interleave sched _ _).mpr (Or.inr (by decide))⟩

/-- Closed instance of `handleClient_complete`: with a successful
stream open and the schedule that lets the local→stream goroutine run
first, the stream is closed and both directions finish before the
teardown. -/
theorem handleClient_complete_witness :
    FAct.closeStream ∈ handleClient true [false, false] ∧
    ∃ w, handleClient true [false, false] =
        w ++ [FAct.closeStream, FAct.closeLocal] ∧
      FAct.finish .streamToLocal ∈ w ∧ FAct.finish .localToStream ∈ w :=
  (handleClient_complete true [false, false]).2.2 rfl

/-- While running, one dispatch advances `rr` by one, keeps the proxy
running, keeps the pool length, and binds the connection to slot
`rr mod poolLen` whatever the repair outcome. -/
lemma dispatchOne_facts (st : GoState) (o : Except String Unit)
    (h : st.running = true) :
    (dispatchOne st o).1.running = true ∧
    (dispatchOne st o).1.rr = st.rr + 1 ∧
    (poolOf (dispatchOne st o).1).length = (poolOf st).length ∧
    slotOf (dispatchOne st o).2 = some (st.rr % (poolOf st).length) := by
  rw [dispatchOne, h]
  simp only [if_true]
  cases hocc : (poolOf st).getD (st.rr % (poolOf st).length) none with
  | some s =>
    by_cases hs : s ∈ st.openSessions
    · simp [hs, slotOf, poolOf]
    · simp only [hs, if_false, repairSlot]
      cases o with
      | error e => simp [slotOf, poolOf]
      | ok u => simp [slotOf, poolOf, List.length_set]
  | none =>
    simp only [repairSlot]
    cases o with
    | error e => simp [slotOf, poolOf]
    | ok u => simp [slotOf, poolOf, List.length_set]

/-- A running proxy never exits the accept loop on a dispatch. -/
lemma dispatchOne_ne_exited (st : GoState) (o : Except String Unit)
    (h : st.running = true) : (dispatchOne st o).2 ≠ DispatchResult.exited := by
  intro he
  have := (dispatchOne_facts st o h).2.2.2
  rw [he] at this
  exact absurd this (by simp [slotOf])

/-- Round-robin invariant along any event sequence: `rr` advances once
per accepted connection, each accept produces one dispatch result, and
the `k`-th accept is bound to slot `(rr₀ + k) mod N`. -/
lemma runEvents_rr (es : List Event) : ∀ st N, st.running = true →
    (poolOf st).length = N → 0 < N →
    (runEvents st es).1.rr = st.rr + countAccepts es ∧
    (runEvents st es).2.length = countAccepts es ∧
    (∀ k, k < countAccepts es →
      slotOf ((runEvents st es).2.getD k .exited) = some ((st.rr + k) % N)) := by
  induction es with
  | nil => intro st N h hN hpos; simp [runEvents, countAccepts]
  | cons e es ih =>
    intro st N h hN hpos
    cases e with
    | die sid =>
      have hrun' : ({ st with openSessions := st.openSessions.erase sid } :
          GoState).running = true := h
      have hN' : (poolOf { st with openSessions := st.openSessions.erase sid }).length
          = N := hN
      have := ih _ N hrun' hN' hpos
      simpa [runEvents, stepEv, countAccepts] using this
    | accept o =>
      have hfacts := dispatchOne_facts st o h
      have hrun' := hfacts.1
      have hN' : (poolOf (dispatchOne st o).1).length = N := by
        rw [hfacts.2.2.1, hN]
      have hrest := ih _ N hrun' hN' hpos
      have hre : runEvents st (.accept o :: es) =
          ((runEvents (dispatchOne st o).1 es).1,
            (dispatchOne st o).2 :: (runEvents (dispatchOne st o).1 es).2) := rfl
      rw [hre]
      refine ⟨?_, ?_, ?_⟩
      · rw [hrest.1, hfacts.2.1]
        show _ = st.rr + countAccepts (.accept o :: es)
        rw [countAccepts]
        omega
      · rw [List.length_cons, hrest.2.1]
        rfl
      · intro k hk
        cases k with
        | zero =>
          rw [List.getD_cons_zero, hfacts.2.2.2, hN]
          simp
        | succ k =>
          rw [List.getD_cons_succ]
          have hk' : k < countAccepts es := by
            have hc : countAccepts (.accept o :: es) = countAccepts es + 1 := rfl
            omega
          rw [hrest.2.2 k hk', hfacts.2.1]
          have hadd : st.rr + 1 + k = st.rr + (k + 1) := by omega
          rw [hadd]

/-- C2: with the proxy running over a pool of size `N` and the
round-robin counter at its initial value 0, any sequence of events
(accepted connections with arbitrary repair outcomes, interleaved with
remote session deaths) binds the `k`-th accepted connection to slot
`k mod N`, and the counter ends equal to the number of accepts — it
advances on every accept, including dispatches whose repair fails. -/
theorem roundRobin_assignment (st : GoState) (es : List Event) (N : Nat)
    (hrun : st.running = true) (hN : (poolOf st).length = N) (hpos : 0 < N)
    (hrr : st.rr = 0) :
    (runEvents st es).2.length = countAccepts es ∧
    (runEvents st es).1.rr = countAccepts es ∧
    ∀ k, k < countAccepts es →
      slotOf ((runEvents st es).2.getD k .exited) = some (k % N) := by
  have h := runEvents_rr es st N hrun hN hpos
  rw [hrr] at h
  exact ⟨h.2.1, by rw [h.1]; omega, fun k hk => by simpa using h.2.2 k hk⟩

/-- Closed instance of `roundRobin_assignment`: pool size 3, seven
accepted connections (the second one's slot holds a dead session and
its repair fails; the fifth repairs the same slot successfully); the
seventh (k = 6) lands on slot `6 mod 3 = 0` and the counter ends at
7. -/
theorem roundRobin_assignment_witness :
    (runEvents
        { running := true, proxyListener := some 0,
          proxySessions := some [some 1, some 2, some 3],
          proxyConfig := none, stopClosed := some false, rr := 0, nextId := 4,
          openSessions := [1, 3], openListeners := [0] }
        [.accept (.ok ()), .accept (.error "dial timeout"), .accept (.ok ()),
         .accept (.ok ()), .accept (.ok ()), .accept (.ok ()),
         .accept (.ok ())]).1.rr = 7 ∧
    slotOf ((runEvents
        { running := true, proxyListener := some 0,
          proxySessions := some [some 1, some 2, some 3],
          proxyConfig := none, stopClosed := some false, rr := 0, nextId := 4,
          openSessions := [1, 3], openListeners := [0] }
        [.accept (.ok ()), .accept (.error "dial timeout"), .accept (.ok ()),
         .accept (.ok ()), .accept (.ok ()), .accept (.ok ()),
         .accept (.ok ())]).2.getD 6 .exited) = some (6 % 3) :=
  ⟨(roundRobin_assignment _ _ 3 rfl (by rfl) (by decide) rfl).2.1,
    (roundRobin_assignment _ _ 3 rfl (by rfl) (by decide) rfl).2.2 6 (by decide)⟩

/-- C3: at dispatch time, if the selected slot's session is absent or
reports closed, exactly one replacement session is created (one fresh
id, one new open session) and installed into that slot in the state
handed to the Forwarder along with the connection; and whenever the
selected slot's occupant is alive it is reused and the state (other
than the advanced round-robin counter) is unchanged — so a dispatch to
the repaired slot reuses the replacement until it too reports
closed. -/
theorem slotRepair_install_and_reuse (st : GoState) (o : Except String Unit)
    (hrun : st.running = true) :
    (slotDead st (st.rr % (poolOf st).length) = true → o = .ok () →
      (dispatchOne st o).2 =
        .forwarded (st.rr % (poolOf st).length) st.nextId ∧
      (dispatchOne st o).1.proxySessions =
        some ((poolOf st).set (st.rr % (poolOf st).length) (some st.nextId)) ∧
      (dispatchOne st o).1.nextId = st.nextId + 1 ∧
      (dispatchOne st o).1.openSessions = st.openSessions ++ [st.nextId]) ∧
    (∀ s, (poolOf st).getD (st.rr % (poolOf st).length) none = some s →
      s ∈ st.openSessions →
      (dispatchOne st o).2 = .forwarded (st.rr % (poolOf st).length) s ∧
      (dispatchOne st o).1 = { st with rr := st.rr + 1 }) := by
  constructor
  · intro hdead hok
    subst hok
    rw [dispatchOne, hrun]
    simp only [if_true]
    rw [slotDead] at hdead
    cases hocc : (poolOf st).getD (st.rr % (poolOf st).length) none with
    | some s =>
      rw [hocc] at hdead
      have hs : s ∉ st.openSessions := by simpa using hdead
      simp [hs, repairSlot]
    | none => simp [repairSlot]
  · intro s hocc hs
    rw [dispatchOne, hrun]
    simp only [if_true]
    rw [hocc]
    simp [hs]

/-- Closed instance of `slotRepair_install_and_reuse`: slot 1 of a
3-slot pool holds the dead session 2; dispatching with a successful
creation installs the fresh session 4 into slot 1 and forwards on
it. -/
theorem slotRepair_install_and_reuse_witness :
    (dispatchOne demoState (.ok ())).2 = .forwarded 1 4 ∧
    (dispatchOne demoState (.ok ())).1.proxySessions =
      some [some 1, some 4, some 3] :=
  ⟨((slotRepair_install_and_reuse demoState (.ok ()) rfl).1 (by decide) rfl).1,
    by
      have h :=
        ((slotRepair_install_and_reuse demoState (.ok ()) rfl).1 (by decide) rfl).2.1
      rw [h]; rfl⟩

/-- C4: if the selected slot is dead and the replacement creation
fails, the accepted connection is dropped (closed, no Forwarder), the
state is unchanged except that the round-robin counter has advanced —
the slot's contents, the pool, and the session ledger are untouched —
the proxy stays running, and the next accepted connection is still
dispatched (the loop never exits on this path). -/
theorem repairFailure_drops_connection (st : GoState) (e : String)
    (hrun : st.running = true)
    (hdead : slotDead st (st.rr % (poolOf st).length) = true) :
    (dispatchOne st (.error e)).2 = .dropped (st.rr % (poolOf st).length) ∧
    (dispatchOne st (.error e)).1 = { st with rr := st.rr + 1 } ∧
    IsRunning (dispatchOne st (.error e)).1 = true ∧
    ∀ o, (dispatchOne (dispatchOne st (.error e)).1 o).2 ≠ .exited := by
  have hmain : (dispatchOne st (.error e)).2 =
      .dropped (st.rr % (poolOf st).length) ∧
      (dispatchOne st (.error e)).1 = { st with rr := st.rr + 1 } := by
    rw [dispatchOne, hrun]
    simp only [if_true]
    rw [slotDead] at hdead
    cases hocc : (poolOf st).getD (st.rr % (poolOf st).length) none with
    | some s =>
      rw [hocc] at hdead
      have hs : s ∉ st.openSessions := by simpa using hdead
      simp [hs, repairSlot]
    | none => simp [repairSlot]
  refine ⟨hmain.1, hmain.2, ?_, fun o => ?_⟩
  · rw [hmain.2]; exact hrun
  · exact dispatchOne_ne_exited _ o (by rw [hmain.2]; exact hrun)

/-- Closed instance of `repairFailure_drops_connection`: the dead slot
1 with a failing dial drops the connection, leaves the pool unchanged,
and the proxy keeps running. -/
theorem repairFailure_drops_connection_witness :
    (dispatchOne demoState (.error "dial timeout")).2 = .dropped 1 ∧
    IsRunning (dispatchOne demoState (.error "dial timeout")).1 = true :=
  ⟨(repairFailure_drops_connection demoState "dial timeout" rfl (by decide)).1,
    (repairFailure_drops_connection demoState "dial timeout" rfl (by decide)).2.2.1⟩

/-- `StopProxy` on a running state with a non-nil listener, written
out as one record. -/
lemma stopProxy_running_some (st : GoState) (h : st.running = true) (l : Nat)
    (hpl : st.proxyListener = some l) :
    StopProxy st =
      { st with running := false, stopClosed := some true,
                proxyListener := none,
                openListeners := st.openListeners.filter (fun x => x ≠ l),
                openSessions := st.openSessions.filter (fun x => x ∉ poolIds st),
                proxySessions := none, proxyConfig := none } := by
  rw [StopProxy]
  simp only [h, if_true]
  have hpl' : ({ st with running := false, stopClosed := some true } :
      GoState).proxyListener = some l := hpl
  rw [hpl']
  rfl

/-- `StopProxy` on a running state with a nil listener, written out as
one record. -/
lemma stopProxy_running_none (st : GoState) (h : st.running = true)
    (hpl : st.proxyListener = none) :
    StopProxy st =
      { st with running := false, stopClosed := some true,
                openSessions := st.openSessions.filter (fun x => x ∉ poolIds st),
                proxySessions := none, proxyConfig := none } := by
  rw [StopProxy]
  simp only [h, if_true]
  have hpl' : ({ st with running := false, stopClosed := some true } :
      GoState).proxyListener = none := hpl
  rw [hpl']
  rfl

/-- C7: after `StopProxy` the proxy is never running; from a
non-running state `StopProxy` is a no-op returning the state
unchanged; from a running state in which every open session sits in a
pool slot and the only open listener is `proxyListener` (the invariant
`StartProxy` establishes and dispatch maintains), `StopProxy` closes
the listener and every still-open session created by the prior
`StartProxy`: no session or listener is left open. -/
theorem stopProxy_spec (st : GoState)
    (hsess : st.running = true → ∀ a ∈ st.openSessions, a ∈ poolIds st)
    (hlis : st.running = true → ∀ a ∈ st.openListeners, a ∈ listenerList st) :
    IsRunning (StopProxy st) = false ∧
    (st.running = false → StopProxy st = st) ∧
    (st.running = true → (StopProxy st).openSessions = [] ∧
      (StopProxy st).openListeners = [] ∧
      (StopProxy st).proxyListener = none ∧
      (StopProxy st).proxySessions = none) := by
  by_cases h : st.running = true
  · have hs := hsess h
    have hl := hlis h
    have hsessnil : st.openSessions.filter (fun x => x ∉ poolIds st) = [] := by
      rw [List.filter_eq_nil_iff]
      intro a ha
      have hmem : a ∈ poolIds st := hs a ha
      simp [hmem]
    cases hpl : st.proxyListener with
    | some l =>
      rw [stopProxy_running_some st h l hpl]
      refine ⟨rfl, fun hf => absurd h (by rw [hf]; decide),
        fun _ => ⟨hsessnil, ?_, rfl, rfl⟩⟩
      rw [List.filter_eq_nil_iff]
      intro a ha
      have hmem : a ∈ listenerList st := hl a ha
      rw [listenerList, hpl] at hmem
      simp at hmem
      simp [hmem]
    | none =>
      have hnil : st.openListeners = [] := by
        rw [List.eq_nil_iff_forall_not_mem]
        intro a ha
        have hmem : a ∈ listenerList st := hl a ha
        rw [listenerList, hpl] at hmem
        exact absurd hmem (List.not_mem_nil a)
      rw [stopProxy_running_none st h hpl]
      exact ⟨rfl, fun hf => absurd h (by rw [hf]; decide),
        fun _ => ⟨hsessnil, hnil, hpl, rfl⟩⟩
  · have hf : st.running = false := by simpa using h
    have hid : StopProxy st = st := by rw [StopProxy]; simp [hf]
    rw [hid]
    exact ⟨by simp [IsRunning, hf], fun _ => rfl, fun ht => absurd ht (by simp [hf])⟩

/-- Closed instance of `stopProxy_spec`: stopping a running proxy
whose two pooled sessions are exactly the open ones closes
everything. -/
theorem stopProxy_spec_witness :
    (StopProxy demoState).openSessions = [] ∧
    (StopProxy demoState).openListeners = [] ∧
    (StopProxy demoState).proxyListener = none ∧
    (StopProxy demoState).proxySessions = none :=
  (stopProxy_spec demoState (fun _ => by decide) (fun _ => by decide)).2.2 rfl

/-- The pool-population loop always produces as many slots as
requested. -/
lemma fillPool_length (o : Nat → Except String Unit) :
    ∀ n i nid, (fillPool o i nid n).1.length = n := by
  intro n
  induction n with
  | zero => intro i nid; rfl
  | succ n ih =>
    intro i nid
    rw [fillPool]
    cases o i with
    | error e => simp
    | ok u => simp [ih]

/-- When every `createSession` of the loop succeeds, the slots are
filled in order with the fresh ids `nid, nid+1, …`, exactly those ids
are created, and the fresh-id counter advances by the pool size. -/
lemma fillPool_ok (o : Nat → Except String Unit) :
    ∀ n i nid, (fillPool o i nid n).2.2.2 = none →
      (fillPool o i nid n).1 = (List.range' nid n).map some ∧
      (fillPool o i nid n).2.2.1 = List.range' nid n ∧
      (fillPool o i nid n).2.1 = nid + n := by
  intro n
  induction n with
  | zero => intro i nid _; exact ⟨rfl, rfl, rfl⟩
  | succ n ih =>
    intro i nid hnone
    rw [fillPool] at hnone ⊢
    cases ho : o i with
    | error e => rw [ho] at hnone; exact absurd hnone (by simp)
    | ok u =>
      rw [ho] at hnone
      simp only at hnone
      have := ih (i + 1) (nid + 1) hnone
      refine ⟨?_, ?_, ?_⟩
      · show some nid :: (fillPool o (i+1) (nid+1) n).1 = _
        rw [this.1, List.range'_succ]
        rfl
      · show nid :: (fillPool o (i+1) (nid+1) n).2.2.1 = _
        rw [this.2.1, List.range'_succ]
      · show (fillPool o (i+1) (nid+1) n).2.1 = _
        rw [this.2.2]
        omega

/-- When the first `j` `createSession` calls succeed and the `j`-th
(0-based) fails, the loop reports that failure, has created exactly
the `j` sessions `nid, …, nid+j-1`, and stops there. -/
lemma fillPool_err (o : Nat → Except String Unit) :
    ∀ n j i nid e, j < n → (∀ k, k < j → o (i + k) = .ok ()) →
      o (i + j) = .error e →
      (fillPool o i nid n).2.2.2 = some e ∧
      (fillPool o i nid n).2.2.1 = List.range' nid j ∧
      (fillPool o i nid n).2.1 = nid + j := by
  intro n
  induction n with
  | zero => intro j i nid e hj; omega
  | succ n ih =>
    intro j i nid e hj hok herr
    rw [fillPool]
    cases j with
    | zero =>
      rw [show i + 0 = i by omega] at herr
      rw [herr]
      exact ⟨rfl, rfl, rfl⟩
    | succ j =>
      have h0 : o i = .ok () := by
        have := hok 0 (by omega)
        rwa [show i + 0 = i by omega] at this
      rw [h0]
      have hok' : ∀ k, k < j → o ((i + 1) + k) = .ok () := by
        intro k hk
        have := hok (k + 1) (by omega)
        rwa [show i + (k + 1) = (i + 1) + k by omega] at this
      have herr' : o ((i + 1) + j) = .error e := by
        rwa [show i + (j + 1) = (i + 1) + j by omega] at herr
      have := ih j (i + 1) (nid + 1) e (by omega) hok' herr'
      refine ⟨this.1, ?_, ?_⟩
      · show nid :: (fillPool o (i+1) (nid+1) n).2.2.1 = _
        rw [this.2.1, List.range'_succ]
      · show (fillPool o (i+1) (nid+1) n).2.1 = _
        rw [this.2.2]
        omega

/-- `StartProxy` when already running. -/
lemma startProxy_eq_busy (st : GoState) (s : String) (env : StartEnv)
    (hrun : st.running = true) :
    StartProxy st s env = (st, "Proxy already running") := by
  rw [StartProxy, hrun]
  rfl

/-- `StartProxy` on a decode error. -/
lemma startProxy_eq_config_err (st : GoState) (s : String) (env : StartEnv)
    (e : String) (hrun : st.running = false) (hdec : decodeConfig s = .error e) :
    StartProxy st s env = (st, "Config Error: " ++ e) := by
  rw [StartProxy, hrun, hdec]
  rfl

/-- `StartProxy` on a validation error. -/
lemma startProxy_eq_validate_err (st : GoState) (s : String) (env : StartEnv)
    (c0 : Config) (e : String) (hrun : st.running = false)
    (hdec : decodeConfig s = .ok c0)
    (hval : validateConfig (applyMode (applyDefaults c0)) = some e) :
    StartProxy st s env = (st, "Validate Error: " ++ e) := by
  rw [StartProxy, hrun, hdec]
  simp only [hval]
  rfl

/-- `StartProxy` on a bind error. -/
lemma startProxy_eq_listen_err (st : GoState) (s : String) (env : StartEnv)
    (c0 : Config) (e : String) (hrun : st.running = false)
    (hdec : decodeConfig s = .ok c0)
    (hval : validateConfig (applyMode (applyDefaults c0)) = none)
    (hlis : env.listenOutcome = .error e) :
    StartProxy st s env = (st, "Listen Error: " ++ e) := by
  rw [StartProxy, hrun, hdec]
  simp only [hval, hlis]
  rfl

/-- `StartProxy` when pool population fails: the listener has been
closed again, the partially filled slice and the already-created
sessions remain. -/
lemma startProxy_eq_session_err (st : GoState) (s : String) (env : StartEnv)
    (c0 : Config) (e : String) (hrun : st.running = false)
    (hdec : decodeConfig s = .ok c0)
    (hval : validateConfig (applyMode (applyDefaults c0)) = none)
    (hlis : env.listenOutcome = .ok ())
    (hfp : (fillPool env.createOutcomes 0 (st.nextId + 1)
        (applyMode (applyDefaults c0)).Conn.toNat).2.2.2 = some e) :
    StartProxy st s env =
      ({ st with proxyListener := some st.nextId,
                 proxySessions := some (fillPool env.createOutcomes 0 (st.nextId + 1)
                   (applyMode (applyDefaults c0)).Conn.toNat).1,
                 nextId := (fillPool env.createOutcomes 0 (st.nextId + 1)
                   (applyMode (applyDefaults c0)).Conn.toNat).2.1,
                 openSessions := st.openSessions ++ (fillPool env.createOutcomes 0
                   (st.nextId + 1) (applyMode (applyDefaults c0)).Conn.toNat).2.2.1 },
       "Session Error: " ++ e) := by
  rw [StartProxy, hrun, hdec]
  simp only [hval, hlis, hfp]
  rfl

/-- `StartProxy` on full success. -/
lemma startProxy_eq_ok (st : GoState) (s : String) (env : StartEnv)
    (c0 : Config) (hrun : st.running = false)
    (hdec : decodeConfig s = .ok c0)
    (hval : validateConfig (applyMode (applyDefaults c0)) = none)
    (hlis : env.listenOutcome = .ok ())
    (hfp : (fillPool env.createOutcomes 0 (st.nextId + 1)
        (applyMode (applyDefaults c0)).Conn.toNat).2.2.2 = none) :
    StartProxy st s env =
      ({ st with proxyListener := some st.nextId,
                 openListeners := st.openListeners ++ [st.nextId],
                 proxySessions := some (fillPool env.createOutcomes 0 (st.nextId + 1)
                   (applyMode (applyDefaults c0)).Conn.toNat).1,
                 nextId := (fillPool env.createOutcomes 0 (st.nextId + 1)
                   (applyMode (applyDefaults c0)).Conn.toNat).2.1,
                 openSessions := st.openSessions ++ (fillPool env.createOutcomes 0
                   (st.nextId + 1) (applyMode (applyDefaults c0)).Conn.toNat).2.2.1,
                 proxyConfig := some (applyMode (applyDefaults c0)),
                 running := true,
                 stopClosed := some false,
                 rr := 0 }, "") := by
  rw [StartProxy, hrun, hdec]
  simp only [hval, hlis, hfp]
  rfl

/-- A validation error message produced for a config with a positive
`Conn` is never the conn message. -/
lemma validateConfig_some_ne_conn (c : Config) (e : String)
    (h : validateConfig c = some e) (hc : 1 ≤ c.Conn) :
    e ≠ "conn must be greater than 0" := by
  rw [validateConfig] at h
  split_ifs at h with h1 h2 h3
  · have he : e = "remoteaddr is required" := by simpa using h.symm
    rw [he]; decide
  · omega
  · have he : e = "unsupported smux version: " ++ toString c.SmuxVer := by
      simpa using h.symm
    rw [he]
    exact str_append_ne _ _ _ 'u' 'c' (by decide) (by decide) (by decide)

/-- C10: no input string and no network behaviour can make
`StartProxy` return the validation error about a non-positive pool
size — `applyDefaults` runs first and forces `Conn ≥ 1` — and whenever
`StartProxy` succeeds the pool it created has at least one slot. -/
theorem conn_error_unreachable (st : GoState) (s : String) (env : StartEnv) :
    (StartProxy st s env).2 ≠ "Validate Error: conn must be greater than 0" ∧
    ((StartProxy st s env).2 = "" →
      0 < (poolOf (StartProxy st s env).1).length) := by
  by_cases hrun : st.running = true
  · rw [startProxy_eq_busy st s env hrun]
    exact ⟨(by decide : ("Proxy already running" : String) ≠
        "Validate Error: conn must be greater than 0"),
      fun h => absurd h (by decide : ¬(("Proxy already running" : String) = ""))⟩
  · have hrun' : st.running = false := by simpa using hrun
    cases hdec : decodeConfig s with
    | error e =>
      rw [startProxy_eq_config_err st s env e hrun' hdec]
      exact ⟨str_append_ne _ _ _ 'C' 'V' (by decide) (by decide) (by decide),
        fun h => absurd h (str_append_ne_empty _ _ 'C' (by decide))⟩
    | ok c0 =>
      have hc : 1 ≤ (applyMode (applyDefaults c0)).Conn := by
        rw [applyMode_Conn]
        exact one_le_applyDefaults_Conn c0
      cases hval : validateConfig (applyMode (applyDefaults c0)) with
      | some e =>
        rw [startProxy_eq_validate_err st s env c0 e hrun' hdec hval]
        refine ⟨fun heq => ?_,
          fun h => absurd h (str_append_ne_empty _ _ 'V' (by decide))⟩
        have he : e = "conn must be greater than 0" :=
          str_append_left_cancel "Validate Error: " _ _ heq
        exact validateConfig_some_ne_conn _ e hval hc he
      | none =>
        cases hlis : env.listenOutcome with
        | error e =>
          rw [startProxy_eq_listen_err st s env c0 e hrun' hdec hval hlis]
          exact ⟨str_append_ne _ _ _ 'L' 'V' (by decide) (by decide) (by decide),
            fun h => absurd h (str_append_ne_empty _ _ 'L' (by decide))⟩
        | ok u =>
          cases u
          cases hfp : (fillPool env.createOutcomes 0 (st.nextId + 1)
              (applyMode (applyDefaults c0)).Conn.toNat).2.2.2 with
          | some e =>
            rw [startProxy_eq_session_err st s env c0 e hrun' hdec hval hlis hfp]
            exact ⟨str_append_ne _ _ _ 'S' 'V' (by decide) (by decide) (by decide),
              fun h => absurd h (str_append_ne_empty _ _ 'S' (by decide))⟩
          | none =>
            rw [startProxy_eq_ok st s env c0 hrun' hdec hval hlis hfp]
            refine ⟨(by decide : ("" : String) ≠
              "Validate Error: conn must be greater than 0"), fun _ => ?_⟩
            show 0 < (fillPool env.createOutcomes 0 (st.nextId + 1)
              (applyMode (applyDefaults c0)).Conn.toNat).1.length
            rw [fillPool_length]
            omega

/-- C1 (amended): from a clean stopped state, `StartProxy` either
succeeds — empty result, `IsRunning` true, and the pool holds exactly
`Conn`-after-defaults slots, every one occupied by an open session,
with exactly that many sessions open — or fails with a non-empty error
and `IsRunning` still false, with no listener left open; however, when
the `createSession` for slot `i` fails during initial pool population,
only the listener is torn down: the `i` sessions already created for
slots `0 … i-1` are left open (the source closes none of them). -/
theorem startProxy_pool_creation (st : GoState) (s : String) (env : StartEnv)
    (h1 : st.running = false) (h2 : st.openSessions = [])
    (h3 : st.openListeners = []) :
    ((StartProxy st s env).2 = "" →
      IsRunning (StartProxy st s env).1 = true ∧
      ∃ c0, decodeConfig s = .ok c0 ∧
        ∃ sl, (StartProxy st s env).1.proxySessions = some sl ∧
          sl.length = (applyMode (applyDefaults c0)).Conn.toNat ∧
          (∀ x ∈ sl, ∃ sid, x = some sid ∧
            sid ∈ (StartProxy st s env).1.openSessions) ∧
          (StartProxy st s env).1.openSessions.length =
            (applyMode (applyDefaults c0)).Conn.toNat) ∧
    ((StartProxy st s env).2 ≠ "" →
      IsRunning (StartProxy st s env).1 = false ∧
      (StartProxy st s env).1.openListeners = []) ∧
    (∀ c0 i e, decodeConfig s = .ok c0 →
      validateConfig (applyMode (applyDefaults c0)) = none →
      env.listenOutcome = .ok () →
      i < (applyMode (applyDefaults c0)).Conn.toNat →
      (∀ j, j < i → env.createOutcomes j = .ok ()) →
      env.createOutcomes i = .error e →
      (StartProxy st s env).2 = "Session Error: " ++ e ∧
      (StartProxy st s env).1.openSessions.length = i) := by
  cases hdec : decodeConfig s with
  | error e0 =>
    rw [startProxy_eq_config_err st s env e0 h1 hdec]
    refine ⟨fun h => absurd h (str_append_ne_empty _ _ 'C' (by decide)), ?_, ?_⟩
    · exact fun _ => ⟨by simp [IsRunning, h1], h3⟩
    · intro c0 i e hdec'
      exact absurd hdec' (by simp)
  | ok c0 =>
    cases hval : validateConfig (applyMode (applyDefaults c0)) with
    | some e0 =>
      rw [startProxy_eq_validate_err st s env c0 e0 h1 hdec hval]
      refine ⟨fun h => absurd h (str_append_ne_empty _ _ 'V' (by decide)), ?_, ?_⟩
      · exact fun _ => ⟨by simp [IsRunning, h1], h3⟩
      · intro c1 i e hdec' hval'
        have hc : c1 = c0 := by simpa using hdec'.symm
        rw [hc, hval] at hval'
        exact absurd hval' (by simp)
    | none =>
      cases hlis : env.listenOutcome with
      | error e0 =>
        rw [startProxy_eq_listen_err st s env c0 e0 h1 hdec hval hlis]
        refine ⟨fun h => absurd h (str_append_ne_empty _ _ 'L' (by decide)), ?_, ?_⟩
        · exact fun _ => ⟨by simp [IsRunning, h1], h3⟩
        · intro c1 i e _ _ hlis'
          exact absurd hlis' (by simp)
      | ok u =>
        cases u
        cases hfp : (fillPool env.createOutcomes 0 (st.nextId + 1)
            (applyMode (applyDefaults c0)).Conn.toNat).2.2.2 with
        | some e0 =>
          rw [startProxy_eq_session_err st s env c0 e0 h1 hdec hval hlis hfp]
          refine ⟨fun h => absurd h (str_append_ne_empty _ _ 'S' (by decide)),
            fun _ => ⟨by simp [IsRunning, h1], h3⟩, ?_⟩
          intro c1 i e hdec' hval' hlis' hi hok herr
          have hc : c1 = c0 := by simpa using hdec'.symm
          rw [hc] at hi hval'
          have hok' : ∀ k, k < i → env.createOutcomes (0 + k) = .ok () := by
            intro k hk
            rw [Nat.zero_add]
            exact hok k hk
          have herr' : env.createOutcomes (0 + i) = .error e := by
            rw [Nat.zero_add]; exact herr
          have hfe := fillPool_err env.createOutcomes
            ((applyMode (applyDefaults c0)).Conn.toNat) i 0 (st.nextId + 1) e
            hi hok' herr'
          have he0 : e0 = e := by
            rw [hfp] at hfe
            simpa using hfe.1
          refine ⟨by rw [he0], ?_⟩
          show (st.openSessions ++ (fillPool env.createOutcomes 0 (st.nextId + 1)
            (applyMode (applyDefaults c0)).Conn.toNat).2.2.1).length = i
          rw [h2, hfe.2.1]
          simp [List.length_range']
        | none =>
          have hfo := fillPool_ok env.createOutcomes
            ((applyMode (applyDefaults c0)).Conn.toNat) 0 (st.nextId + 1) hfp
          rw [startProxy_eq_ok st s env c0 h1 hdec hval hlis hfp]
          refine ⟨fun _ => ⟨rfl, c0, rfl, ?_⟩,
            fun h => absurd rfl h, ?_⟩
          · refine ⟨(fillPool env.createOutcomes 0 (st.nextId + 1)
              (applyMode (applyDefaults c0)).Conn.toNat).1, rfl, ?_, ?_, ?_⟩
            · rw [hfo.1]
              simp [List.length_range']
            · intro x hx
              rw [hfo.1] at hx
              rcases List.mem_map.mp hx with ⟨sid, hsid, hxeq⟩
              refine ⟨sid, hxeq.symm, ?_⟩
              show sid ∈ st.openSessions ++ (fillPool env.createOutcomes 0
                (st.nextId + 1) (applyMode (applyDefaults c0)).Conn.toNat).2.2.1
              rw [h2, hfo.2.1]
              simpa using hsid
            · show (st.openSessions ++ (fillPool env.createOutcomes 0
                (st.nextId + 1) (applyMode (applyDefaults c0)).Conn.toNat).2.2.1).length = _
              rw [h2, hfo.2.1]
              simp [List.length_range']
          · intro c1 i e hdec' hval' hlis' hi hok herr
            have hc : c1 = c0 := by simpa using hdec'.symm
            rw [hc] at hi
            have hok' : ∀ k, k < i → env.createOutcomes (0 + k) = .ok () := by
              intro k hk
              rw [Nat.zero_add]
              exact hok k hk
            have herr' : env.createOutcomes (0 + i) = .error e := by
              rw [Nat.zero_add]; exact herr
            have hfe := fillPool_err env.createOutcomes
              ((applyMode (applyDefaults c0)).Conn.toNat) i 0 (st.nextId + 1) e
              hi hok' herr'
            rw [hfp] at hfe
            exact absurd hfe.1 (by simp)

/-- Closed instance of `startProxy_pool_creation`: a successful start
with pool size 2 leaves the proxy running with both slots holding open
sessions. -/
theorem startProxy_pool_creation_witness :
    IsRunning (StartProxy initState
        "\x7b\"remoteaddr\":\"1.2.3.4:4000\",\"conn\":2\x7d"
        ⟨.ok (), fun _ => .ok ()⟩).1 = true :=
  ((startProxy_pool_creation initState
      "\x7b\"remoteaddr\":\"1.2.3.4:4000\",\"conn\":2\x7d"
      ⟨.ok (), fun _ => .ok ()⟩ rfl rfl rfl).1 rfl).1

/-- C1 is false of the code as stated: with pool size 2, a first
`createSession` that succeeds and a second that fails, `StartProxy`
fails (`Session Error`) yet session 1 — created for slot 0 — is left
open: the source's error path closes only the listener, never the
already-created sessions. -/
theorem startProxy_pool_creation_counterexample :
    (StartProxy initState
        "\x7b\"remoteaddr\":\"1.2.3.4:4000\",\"conn\":2\x7d"
        ⟨.ok (), fun i => if i = 0 then .ok () else .error "dial timeout"⟩).2 =
      "Session Error: dial timeout" ∧
    (StartProxy initState
        "\x7b\"remoteaddr\":\"1.2.3.4:4000\",\"conn\":2\x7d"
        ⟨.ok (), fun i => if i = 0 then .ok () else .error "dial timeout"⟩).1.openSessions =
      [1] := by
  constructor
  · rfl
  · rfl

end Mobilekcp
